import Mathlib

/-!
Verification of the simulchip Collection Reconciliation Engine.

The collection manager and decklist comparison modules are not present in
the repository snapshot (only their tests and callers are), so the engine
is modelled from the specification document, as marked on each definition.
Python dicts are embedded as association lists over String keys with Int
values (Python integers are unbounded), sets of pack codes as Finset
String, and fallible operations return Except CollectionError.
-/

namespace Simulchip

/-- Association-list lookup, first binding wins (Python dict lookup). -/
def alget {α : Type} : List (String × α) → String → Option α
  | [], _ => none
  | (k, v) :: rest, c => if k = c then some v else alget rest c

/-- Association-list assignment: replaces the first binding of the key in
place, or appends a new binding at the end (Python dict assignment). -/
def alset {α : Type} : List (String × α) → String → α → List (String × α)
  | [], c, v => [(c, v)]
  | (k, w) :: rest, c, v =>
    if k = c then (c, v) :: rest else (k, w) :: alset rest c v

/-- Association-list deletion of every binding of the key (Python dict pop
on a map whose keys are unique). -/
def alerase {α : Type} : List (String × α) → String → List (String × α)
  | [], _ => []
  | (k, v) :: rest, c =>
    if k = c then alerase rest c else (k, v) :: alerase rest c

/-- A Python dict from card codes to integer counts. -/
abbrev CMap := List (String × Int)

/-- Lookup with default 0: absence of a key means a count of zero. -/
def algetD (m : CMap) (c : String) : Int := (alget m c).getD 0

/-- The keys of an association list. -/
def alkeys {α : Type} (m : List (String × α)) : List String := m.map Prod.fst

theorem alget_alset_self {α : Type} (m : List (String × α)) (c : String) (v : α) :
    alget (alset m c v) c = some v := by
  induction m with
  | nil => simp [alget, alset]
  | cons p rest ih =>
    obtain ⟨k, w⟩ := p
    by_cases h : k = c
    · simp [alset, alget, h]
    · simp [alset, alget, h, ih]

theorem alget_alset_ne {α : Type} (m : List (String × α)) (c d : String) (v : α)
    (h : c ≠ d) : alget (alset m c v) d = alget m d := by
  induction m with
  | nil => simp [alget, alset, h]
  | cons p rest ih =>
    obtain ⟨k, w⟩ := p
    by_cases hk : k = c
    · subst hk
      simp [alset, alget, h]
    · simp [alset, alget, hk, ih]

theorem alget_alerase_self {α : Type} (m : List (String × α)) (c : String) :
    alget (alerase m c) c = none := by
  induction m with
  | nil => simp [alget, alerase]
  | cons p rest ih =>
    obtain ⟨k, w⟩ := p
    by_cases h : k = c
    · simp [alerase, h, ih]
    · simp [alerase, alget, h, ih]

theorem alget_alerase_ne {α : Type} (m : List (String × α)) (c d : String)
    (h : c ≠ d) : alget (alerase m c) d = alget m d := by
  induction m with
  | nil => simp [alerase]
  | cons p rest ih =>
    obtain ⟨k, w⟩ := p
    by_cases hk : k = c
    · subst hk
      simp [alerase, alget, h, ih]
    · simp [alerase, alget, hk, ih]

theorem mem_alset {α : Type} {m : List (String × α)} {c : String} {v : α}
    {p : String × α} (h : p ∈ alset m c v) : p = (c, v) ∨ p ∈ m := by
  induction m with
  | nil => simpa [alset] using h
  | cons q rest ih =>
    obtain ⟨k, w⟩ := q
    by_cases hk : k = c
    · simp [alset, hk] at h
      rcases h with h | h
      · exact Or.inl h
      · exact Or.inr (List.mem_cons_of_mem _ h)
    · simp [alset, hk] at h
      rcases h with h | h
      · exact Or.inr (by simp [h])
      · rcases ih h with h2 | h2
        · exact Or.inl h2
        · exact Or.inr (List.mem_cons_of_mem _ h2)

theorem mem_alerase {α : Type} {m : List (String × α)} {c : String}
    {p : String × α} (h : p ∈ alerase m c) : p ∈ m := by
  induction m with
  | nil => simp [alerase] at h
  | cons q rest ih =>
    obtain ⟨k, w⟩ := q
    by_cases hk : k = c
    · simp [alerase, hk] at h
      exact List.mem_cons_of_mem _ (ih h)
    · simp [alerase, hk] at h
      rcases h with h | h
      · simp [h]
      · exact List.mem_cons_of_mem _ (ih h)

theorem alkeys_alset {α : Type} (m : List (String × α)) (c : String) (v : α) :
    alkeys (alset m c v) = if c ∈ alkeys m then alkeys m else alkeys m ++ [c] := by
  induction m with
  | nil => simp [alkeys, alset]
  | cons p rest ih =>
    obtain ⟨k, w⟩ := p
    by_cases hk : k = c
    · subst hk
      simp [alset, alkeys]
    · simp only [alset, if_neg hk, alkeys, List.map_cons] at ih ⊢
      rw [ih]
      by_cases hc : c ∈ List.map Prod.fst rest
      · simp [hc, Ne.symm hk]
      · simp [hc, Ne.symm hk]

theorem alkeys_alerase_sublist {α : Type} (m : List (String × α)) (c : String) :
    (alkeys (alerase m c)).Sublist (alkeys m) := by
  induction m with
  | nil => simp [alkeys, alerase]
  | cons p rest ih =>
    obtain ⟨k, w⟩ := p
    by_cases hk : k = c
    · simp only [alerase, hk, if_pos rfl]
      exact ih.trans (List.sublist_cons_self _ _)
    · simp only [alerase, hk, if_neg hk, alkeys, List.map_cons]
      exact List.Sublist.cons₂ _ ih

theorem nodup_alkeys_alset {α : Type} {m : List (String × α)} {c : String} {v : α}
    (h : (alkeys m).Nodup) : (alkeys (alset m c v)).Nodup := by
  rw [alkeys_alset]
  by_cases hc : c ∈ alkeys m
  · simpa [hc] using h
  · simp only [hc, if_neg]
    simp [List.nodup_append, h, hc]

theorem nodup_alkeys_alerase {α : Type} {m : List (String × α)} {c : String}
    (h : (alkeys m).Nodup) : (alkeys (alerase m c)).Nodup :=
  (alkeys_alerase_sublist m c).nodup h

/-- Modelled from the spec: a catalog card as the Reconciliation Engine
reads it (missing module simulchip/comparison metadata aside): the owning
pack code and the per-pack print quantity. -/
structure CardM where
  pack_code : String
  quantity : Int
deriving DecidableEq

/-- Modelled from the spec: the external Catalog, giving the full set of
known cards keyed by code and the set of known pack codes. -/
structure Catalog where
  cards : List (String × CardM)
  packs : List String
deriving DecidableEq

/-- Modelled from the spec: the Collection State of the missing module
simulchip/collection/manager.py: owned packs, card overrides (the field is
named collection in the tests), signed per-card diffs, and missing/lost
counts. -/
structure CollectionState where
  owned_packs : Finset String
  collection : CMap
  card_diffs : CMap
  missing_cards : CMap
deriving DecidableEq

/-- Modelled from the spec: the CollectionError taxonomy raised by the
missing manager module (parse failure, unsupported format, negative count
validation failure). -/
inductive CollectionError where
  | parseFailed
  | unsupportedFormat
  | negativeCount
deriving DecidableEq

/-- Modelled from the spec: add_pack mutates owned_packs only; adding an
already owned pack is a no-op (set insertion). -/
def add_pack (s : CollectionState) (p : String) : CollectionState :=
  { s with owned_packs := insert p s.owned_packs }

/-- Modelled from the spec: remove_pack mutates owned_packs only; it does
not delete any override, diff, or missing entry. -/
def remove_pack (s : CollectionState) (p : String) : CollectionState :=
  { s with owned_packs := s.owned_packs.erase p }

/-- Modelled from the spec: the expected count of a card is the print
quantity in its owning pack when that pack is known and owned, and 0 when
the card is unknown, the pack is unknown, or the pack is not owned. -/
def get_expected_card_count (cat : Catalog) (s : CollectionState)
    (code : String) : Int :=
  match alget cat.cards code with
  | none => 0
  | some card =>
    if card.pack_code ∈ cat.packs ∧ card.pack_code ∈ s.owned_packs then
      card.quantity
    else 0

/-- Modelled from the spec: the stored signed diff of a card, 0 when
absent. -/
def get_card_difference (s : CollectionState) (code : String) : Int :=
  algetD s.card_diffs code

/-- Modelled from the spec: the actual count is the override when one is
present, otherwise expected plus diff, floored at 0. -/
def get_actual_card_count (cat : Catalog) (s : CollectionState)
    (code : String) : Int :=
  match alget s.collection code with
  | some n => n
  | none =>
    max 0 (get_expected_card_count cat s code + get_card_difference s code)

/-- Modelled from the spec: generic signed adjustment of one entry of a
count mapping; the result is clamped at 0 and the key is removed when the
clamped result is 0 (sparse storage). -/
def modify_card_count (m : CMap) (code : String) (delta : Int) : CMap :=
  let n := max 0 (algetD m code + delta)
  if n = 0 then alerase m code else alset m code n

/-- Modelled from the spec: set_card_count stores an absolute override,
removing the key instead of storing 0, and rejects a negative count with a
ValidationError. -/
def set_card_count (s : CollectionState) (code : String) (n : Int) :
    Except CollectionError CollectionState :=
  if n < 0 then .error .negativeCount
  else
    .ok { s with
      collection :=
        if n = 0 then alerase s.collection code else alset s.collection code n }

/-- Modelled from the spec: add_card adds copies to the overrides mapping
via modify_card_count, rejecting a negative quantity. -/
def add_card (s : CollectionState) (code : String) (qty : Int) :
    Except CollectionError CollectionState :=
  if qty < 0 then .error .negativeCount
  else .ok { s with collection := modify_card_count s.collection code qty }

/-- Modelled from the spec: remove_card removes copies from the overrides
mapping via modify_card_count, rejecting a negative quantity. -/
def remove_card (s : CollectionState) (code : String) (qty : Int) :
    Except CollectionError CollectionState :=
  if qty < 0 then .error .negativeCount
  else .ok { s with collection := modify_card_count s.collection code (-qty) }

/-- Modelled from the spec: add_missing_card adds to the missing/lost
counts, clamped and sparse, rejecting a negative quantity. -/
def add_missing_card (s : CollectionState) (code : String) (qty : Int) :
    Except CollectionError CollectionState :=
  if qty < 0 then .error .negativeCount
  else .ok { s with missing_cards := modify_card_count s.missing_cards code qty }

/-- Modelled from the spec: remove_missing_card removes from the
missing/lost counts, clamped and sparse, rejecting a negative quantity. -/
def remove_missing_card (s : CollectionState) (code : String) (qty : Int) :
    Except CollectionError CollectionState :=
  if qty < 0 then .error .negativeCount
  else .ok { s with missing_cards := modify_card_count s.missing_cards code (-qty) }

/-- Modelled from the spec: set_card_difference stores the signed diff for
a card in card_diffs (removing the key at diff 0, sparse storage); it does
not touch the overrides. -/
def set_card_difference (s : CollectionState) (code : String) (d : Int) :
    CollectionState :=
  { s with
    card_diffs :=
      if d = 0 then alerase s.card_diffs code else alset s.card_diffs code d }

/-- Modelled from the spec: modify_card_difference adds a signed delta to
the stored diff, without clamping (removing the key when the sum is 0). -/
def modify_card_difference (s : CollectionState) (code : String) (delta : Int) :
    CollectionState :=
  let n := get_card_difference s code + delta
  { s with
    card_diffs :=
      if n = 0 then alerase s.card_diffs code else alset s.card_diffs code n }

/-- Modelled from the spec: has_card holds when the actual count reaches
the requested quantity. -/
def has_card (cat : Catalog) (s : CollectionState) (code : String) (qty : Int) :
    Prop :=
  qty ≤ get_actual_card_count cat s code

/-- Modelled from the spec: the persisted document shape of the Collection
Store, keyed by packs, cards (overrides), and missing. -/
structure CollectionDoc where
  packs : List String
  cards : CMap
  missing : CMap
deriving DecidableEq

/-- Modelled from the spec: count validation on load rejects any negative
count with a ValidationError and silently drops zero-valued entries. -/
def validate_card_counts (m : CMap) : Except CollectionError CMap :=
  if ∀ p ∈ m, 0 ≤ p.2 then
    .ok (m.filter (fun p => decide (p.2 ≠ 0)))
  else .error .negativeCount

/-- Modelled from the spec: parsing the mapping-shaped persisted document
into a fresh Collection State, validating every count before any state is
built (diffs are not persisted in this document shape). -/
def parse_collection_data (doc : CollectionDoc) :
    Except CollectionError CollectionState :=
  match validate_card_counts doc.cards with
  | .error e => .error e
  | .ok cards =>
    match validate_card_counts doc.missing with
    | .error e => .error e
    | .ok missing => .ok ⟨doc.packs.toFinset, cards, [], missing⟩

/-- Modelled from the spec: loading a document replaces the in-memory
state on success and leaves it untouched when parsing fails (atomic
failure). -/
def try_load (s : CollectionState) (doc : CollectionDoc) : CollectionState :=
  match parse_collection_data doc with
  | .ok s2 => s2
  | .error _ => s

/-- Modelled from the spec: save_collection serializes owned packs (sorted
for determinism), the overrides, and the missing counts into the persisted
document shape. -/
def save_collection (s : CollectionState) : CollectionDoc :=
  { packs := s.owned_packs.sort (· ≤ ·)
    cards := s.collection
    missing := s.missing_cards }

/-- Modelled from the spec: the per-card requirement record produced by
the Decklist Comparator. -/
structure CardRequirement where
  code : String
  required : Int
  owned : Int
  missing : Int
deriving DecidableEq

/-- Modelled from the spec: a requirement is satisfied exactly when its
missing quantity is 0. -/
def CardRequirement.is_satisfied (r : CardRequirement) : Prop := r.missing = 0

/-- Modelled from the spec: the available count for deck comparison is the
actual count minus the missing/lost count for the card, floored at 0. -/
def get_available_count (cat : Catalog) (s : CollectionState)
    (code : String) : Int :=
  max 0 (get_actual_card_count cat s code - algetD s.missing_cards code)

/-- Modelled from the spec: the Decklist Comparator walks the decklist in
its own iteration order and emits, for each entry, a CardRequirement with
owned capped by availability. -/
def analyze_decklist (cat : Catalog) (s : CollectionState)
    (deck : List (String × Int)) : List CardRequirement :=
  deck.map (fun e =>
    let avail := get_available_count cat s e.1
    let owned := min e.2 avail
    ⟨e.1, e.2, owned, e.2 - owned⟩)

/-- Modelled from the spec: the aggregate statistics of a comparison
result; the completion percentage is owned over total times 100, and 0
when the total is 0. -/
structure ComparisonStats where
  total_cards : Int
  owned_cards : Int
  missing_cards : Int
  completion_percentage : ℚ
deriving DecidableEq

/-- Modelled from the spec: the aggregate statistics accumulated over the
emitted requirements. -/
def compute_stats (reqs : List CardRequirement) : ComparisonStats :=
  let total := (reqs.map (fun r => r.required)).sum
  let owned := (reqs.map (fun r => r.owned)).sum
  { total_cards := total
    owned_cards := owned
    missing_cards := (reqs.map (fun r => r.missing)).sum
    completion_percentage :=
      if total = 0 then 0 else (owned : ℚ) / (total : ℚ) * 100 }

/-- Modelled from the spec: the comparison result of one decklist against
the engine, requirements in decklist order plus aggregate stats. -/
structure ComparisonResult where
  requirements : List CardRequirement
  stats : ComparisonStats
deriving DecidableEq

/-- Modelled from the spec: the Decklist Comparator as a whole. -/
def compare_decklist (cat : Catalog) (s : CollectionState)
    (deck : List (String × Int)) : ComparisonResult :=
  let reqs := analyze_decklist cat s deck
  ⟨reqs, compute_stats reqs⟩

/-! Mutation-operation alphabet for invariant claims: one constructor per
Reconciliation Engine mutation, run over a state with Python raising
(Except.error) modelled as leaving the state unchanged. -/

/-- One mutation operation of the Reconciliation Engine. -/
inductive Op where
  | addPack (p : String)
  | removePack (p : String)
  | addCard (c : String) (q : Int)
  | removeCard (c : String) (q : Int)
  | setCardCount (c : String) (n : Int)
  | addMissing (c : String) (q : Int)
  | removeMissing (c : String) (q : Int)
  | setDiff (c : String) (d : Int)
  | modifyDiff (c : String) (d : Int)
deriving DecidableEq

/-- Running one mutation; a validation error leaves the state as it was
before the call. -/
def step (s : CollectionState) : Op → CollectionState
  | .addPack p => add_pack s p
  | .removePack p => remove_pack s p
  | .addCard c q => match add_card s c q with | .ok s2 => s2 | .error _ => s
  | .removeCard c q => match remove_card s c q with | .ok s2 => s2 | .error _ => s
  | .setCardCount c n =>
    match set_card_count s c n with | .ok s2 => s2 | .error _ => s
  | .addMissing c q =>
    match add_missing_card s c q with | .ok s2 => s2 | .error _ => s
  | .removeMissing c q =>
    match remove_missing_card s c q with | .ok s2 => s2 | .error _ => s
  | .setDiff c d => set_card_difference s c d
  | .modifyDiff c d => modify_card_difference s c d

/-- Running a whole sequence of mutations. -/
def run_ops (s : CollectionState) (ops : List Op) : CollectionState :=
  ops.foldl step s

/-- Well-formedness of a sparse count mapping: unique keys and every
stored value strictly positive (a value that reached 0 was removed). -/
def MapWF (m : CMap) : Prop := (alkeys m).Nodup ∧ ∀ p ∈ m, 0 < p.2

/-- Well-formedness of the signed diff mapping: unique keys and no stored
zero (sparse). -/
def DiffWF (m : CMap) : Prop := (alkeys m).Nodup ∧ ∀ p ∈ m, p.2 ≠ 0

/-- Well-formedness of a whole Collection State. -/
def StateWF (s : CollectionState) : Prop :=
  MapWF s.collection ∧ DiffWF s.card_diffs ∧ MapWF s.missing_cards

instance (m : CMap) : Decidable (MapWF m) := by unfold MapWF; infer_instance

instance (m : CMap) : Decidable (DiffWF m) := by unfold DiffWF; infer_instance

instance (s : CollectionState) : Decidable (StateWF s) := by
  unfold StateWF; infer_instance

/-! Embedding of NetrunnerDBAPI.get_card_by_code from
src/simulchip/api/netrunnerdb.py. The card set argument is the mapping
that get_all_cards returns; the network and cache plumbing behind it does
not affect the validation logic under scrutiny. -/

/-- The error raised by the card code validation (Python ValueError). -/
inductive ApiValueError where
  | valueError
deriving DecidableEq

/-- Python per-character str.isdigit: true for characters whose Unicode
numeric type is Digit or Decimal. Modelled over the ASCII decimal digits
plus the superscript and subscript digit code points (the only non-ASCII
digit characters this development evaluates the function on). -/
def pyCharIsdigit (c : Char) : Bool :=
  c.isDigit ||
    decide (c.toNat = 0xB9 ∨ c.toNat = 0xB2 ∨ c.toNat = 0xB3 ∨
      (0x2070 ≤ c.toNat ∧ c.toNat ≤ 0x2079) ∨
      (0x2080 ≤ c.toNat ∧ c.toNat ≤ 0x2089))

/-- Python str.isdigit: the string is nonempty and every character passes
the per-character test. -/
def pyStrIsdigit (s : String) : Bool :=
  !s.data.isEmpty && s.data.all pyCharIsdigit

/-- Embeds NetrunnerDBAPI.get_card_by_code: an empty code raises
ValueError, a code failing the isdigit-and-length-5 check raises
ValueError, and otherwise the card set lookup is returned (None when
absent). -/
def get_card_by_code (cards : List (String × CardM)) (card_code : String) :
    Except ApiValueError (Option CardM) :=
  if card_code = "" then .error .valueError
  else if pyStrIsdigit card_code = false ∨ card_code.length ≠ 5 then
    .error .valueError
  else .ok (alget cards card_code)

/-! Concrete fixtures, mirroring the MockAPIClient of
src/tests/test_collection.py: pack core holds cards 01001 and 01002 with
print quantity 3, pack wla holds card 02001 with print quantity 3. -/

/-- The test catalog. -/
def cat0 : Catalog :=
  ⟨[("01001", ⟨"core", 3⟩), ("01002", ⟨"core", 3⟩), ("02001", ⟨"wla", 3⟩)],
    ["core", "wla"]⟩

/-- A state owning pack core and nothing else. -/
def st0 : CollectionState := ⟨{"core"}, [], [], []⟩

/-- The empty state a new collection starts from. -/
def stEmpty : CollectionState := ⟨∅, [], [], []⟩

/-- The card set used for the API counterexample. -/
def cards0 : List (String × CardM) := [("01001", ⟨"core", 3⟩)]

/-- C7: remove_pack removes the pack from owned_packs and changes no
override, diff, or missing entry (ownership and count-tracking are
decoupled). -/
theorem c7_remove_pack_frame (s : CollectionState) (p : String) :
    (remove_pack s p).owned_packs = s.owned_packs.erase p ∧
    p ∉ (remove_pack s p).owned_packs ∧
    (remove_pack s p).collection = s.collection ∧
    (remove_pack s p).card_diffs = s.card_diffs ∧
    (remove_pack s p).missing_cards = s.missing_cards :=
  ⟨rfl, Finset.not_mem_erase p s.owned_packs, rfl, rfl, rfl⟩

/-- C9: adding an already owned pack and removing an unowned pack are
no-ops on the whole Collection State. -/
theorem c9_pack_idempotent (s : CollectionState) (p : String) :
    (p ∈ s.owned_packs → add_pack s p = s) ∧
    (p ∉ s.owned_packs → remove_pack s p = s) := by
  constructor
  · intro h
    unfold add_pack
    cases s with
    | mk a b c d => simp [Finset.insert_eq_self.mpr h]
  · intro h
    unfold remove_pack
    cases s with
    | mk a b c d => simp [Finset.erase_eq_self.mpr h]

/-- Witness for C9 at the fixture state owning exactly pack core. -/
theorem c9_pack_idempotent_witness :
    ("core" ∈ st0.owned_packs ∧ add_pack st0 "core" = st0) ∧
    ("wla" ∉ st0.owned_packs ∧ remove_pack st0 "wla" = st0) :=
  ⟨⟨by decide, (c9_pack_idempotent st0 "core").1 (by decide)⟩,
    ⟨by decide, (c9_pack_idempotent st0 "wla").2 (by decide)⟩⟩

/-- C8: a persisted document holding a negative card count fails to parse
with the validation error, and the in-memory state is left exactly as it
was (atomic failure). -/
theorem c8_load_negative_atomic (s : CollectionState) (doc : CollectionDoc)
    (h : (∃ p ∈ doc.cards, p.2 < 0) ∨ ∃ p ∈ doc.missing, p.2 < 0) :
    parse_collection_data doc = Except.error CollectionError.negativeCount ∧
    try_load s doc = s := by
  have hmain :
      parse_collection_data doc = Except.error CollectionError.negativeCount := by
    rcases h with ⟨p, hp, hneg⟩ | ⟨p, hp, hneg⟩
    · have hnot : ¬ ∀ q ∈ doc.cards, 0 ≤ q.2 := by
        push_neg
        exact ⟨p, hp, by omega⟩
      simp only [parse_collection_data, validate_card_counts]
      rw [if_neg hnot]
    · by_cases hc : ∀ q ∈ doc.cards, 0 ≤ q.2
      · have hnot : ¬ ∀ q ∈ doc.missing, 0 ≤ q.2 := by
          push_neg
          exact ⟨p, hp, by omega⟩
        simp only [parse_collection_data, validate_card_counts]
        rw [if_pos hc, if_neg hnot]
      · simp only [parse_collection_data, validate_card_counts]
        rw [if_neg hc]
  refine ⟨hmain, ?_⟩
  unfold try_load
  rw [hmain]

/-- A document carrying a negative count for card 01001. -/
def docNeg : CollectionDoc := ⟨["core"], [("01001", -1)], []⟩

/-- Witness for C8 at a concrete negative-count document. -/
theorem c8_load_negative_atomic_witness :
    ((∃ p ∈ docNeg.cards, p.2 < 0) ∨ ∃ p ∈ docNeg.missing, p.2 < 0) ∧
    (parse_collection_data docNeg = Except.error CollectionError.negativeCount ∧
      try_load st0 docNeg = st0) :=
  ⟨by decide, c8_load_negative_atomic st0 docNeg (by decide)⟩

/-- Validation accepts a well-formed sparse mapping unchanged. -/
theorem validate_card_counts_of_MapWF {m : CMap} (h : MapWF m) :
    validate_card_counts m = Except.ok m := by
  obtain ⟨hnod, hpos⟩ := h
  have hf : List.filter (fun p => decide (p.2 ≠ 0)) m = m := by
    rw [List.filter_eq_self]
    intro p hp
    simpa using ne_of_gt (hpos p hp)
  unfold validate_card_counts
  rw [if_pos (fun p hp => le_of_lt (hpos p hp)), hf]

/-- C6: saving a well-formed Collection State and parsing the written
document back yields a state with identical owned packs, identical
overrides, and identical missing counts. -/
theorem c6_save_load_round_trip (s : CollectionState) (h : StateWF s) :
    parse_collection_data (save_collection s) =
      Except.ok
        (⟨s.owned_packs, s.collection, [], s.missing_cards⟩ : CollectionState) := by
  obtain ⟨hc, _, hm⟩ := h
  unfold parse_collection_data save_collection
  dsimp only
  rw [validate_card_counts_of_MapWF hc, validate_card_counts_of_MapWF hm]
  simp [Finset.sort_toFinset]

/-- A well-formed state exercising every persisted field. -/
def stRich : CollectionState :=
  ⟨{"core"}, [("01001", 3)], [("01002", -1)], [("02001", 1)]⟩

/-- Witness for C6 at a concrete well-formed state. -/
theorem c6_save_load_round_trip_witness :
    StateWF stRich ∧
    parse_collection_data (save_collection stRich) =
      Except.ok
        (⟨stRich.owned_packs, stRich.collection, [],
          stRich.missing_cards⟩ : CollectionState) :=
  ⟨by decide, c6_save_load_round_trip stRich (by decide)⟩

/-- C1 (amended): the expected-count and actual-count reconciliation
formulas, and the effect of set_card_difference on the actual count when
no override is present and the resulting count is not clamped at 0. -/
theorem c1_reconciliation (cat : Catalog) (s : CollectionState) (code : String) :
    (∀ card, alget cat.cards code = some card →
        card.pack_code ∈ cat.packs → card.pack_code ∈ s.owned_packs →
        get_expected_card_count cat s code = card.quantity) ∧
    (alget cat.cards code = none → get_expected_card_count cat s code = 0) ∧
    (∀ card, alget cat.cards code = some card →
        card.pack_code ∉ cat.packs ∨ card.pack_code ∉ s.owned_packs →
        get_expected_card_count cat s code = 0) ∧
    (∀ n, alget s.collection code = some n →
        get_actual_card_count cat s code = n) ∧
    (alget s.collection code = none →
        get_actual_card_count cat s code =
          max 0 (get_expected_card_count cat s code + algetD s.card_diffs code)) ∧
    (∀ d, alget s.collection code = none →
        0 ≤ get_expected_card_count cat s code + d →
        get_actual_card_count cat (set_card_difference s code d) code =
          get_expected_card_count cat s code + d) := by
  refine ⟨?_, ?_, ?_, ?_, ?_, ?_⟩
  · intro card hcard hp ho
    unfold get_expected_card_count
    rw [hcard]
    exact if_pos ⟨hp, ho⟩
  · intro hcard
    unfold get_expected_card_count
    rw [hcard]
  · intro card hcard hno
    unfold get_expected_card_count
    rw [hcard]
    refine if_neg ?_
    rintro ⟨hp, ho⟩
    rcases hno with hn | hn
    · exact hn hp
    · exact hn ho
  · intro n hn
    unfold get_actual_card_count
    rw [hn]
  · intro hn
    unfold get_actual_card_count get_card_difference
    rw [hn]
  · intro d hn hnonneg
    have hexp :
        get_expected_card_count cat (set_card_difference s code d) code =
          get_expected_card_count cat s code := rfl
    have hcoll : alget (set_card_difference s code d).collection code = none := hn
    have hdiff :
        get_card_difference (set_card_difference s code d) code = d := by
      unfold get_card_difference set_card_difference algetD
      by_cases hd : d = 0
      · simp [hd, alget_alerase_self]
      · simp [hd, alget_alset_self]
    unfold get_actual_card_count
    rw [hcoll, hexp, hdiff]
    exact max_eq_right hnonneg

/-- Witness for C1: the spec scenario where owning pack core and setting a
diff of minus one yields an actual count of expected plus the diff. -/
theorem c1_reconciliation_witness :
    alget st0.collection "01001" = none ∧
    0 ≤ get_expected_card_count cat0 st0 "01001" + (-1) ∧
    get_actual_card_count cat0 (set_card_difference st0 "01001" (-1)) "01001" =
      get_expected_card_count cat0 st0 "01001" + (-1) :=
  ⟨by decide, by decide,
    (c1_reconciliation cat0 st0 "01001").2.2.2.2.2 (-1) (by decide) (by decide)⟩

/-- Counterexample to C1 as stated: with pack core owned (expected count
3) and no override, set_card_difference with diff minus five leaves an
actual count of 0, not expected plus diff (which would be minus two). -/
theorem c1_counterexample :
    "core" ∈ (set_card_difference st0 "01001" (-5)).owned_packs ∧
    get_actual_card_count cat0 (set_card_difference st0 "01001" (-5)) "01001" ≠
      get_expected_card_count cat0 (set_card_difference st0 "01001" (-5))
          "01001" + (-5) := by
  decide

/-- C3 (amended): set_card_count succeeds for any nonnegative count; a
positive count becomes the actual count; a zero count removes the
override key, so the actual count reverts to the pack-derived
reconciliation (0 only when that reconciliation gives 0). -/
theorem c3_set_card_count (cat : Catalog) (s : CollectionState) (code : String)
    (n : Int) :
    (0 ≤ n → ∃ s2, set_card_count s code n = Except.ok s2) ∧
    (0 < n → ∀ s2, set_card_count s code n = Except.ok s2 →
        get_actual_card_count cat s2 code = n) ∧
    (n = 0 → ∀ s2, set_card_count s code n = Except.ok s2 →
        alget s2.collection code = none ∧
        get_actual_card_count cat s2 code =
          max 0 (get_expected_card_count cat s code +
            algetD s.card_diffs code)) := by
  refine ⟨?_, ?_, ?_⟩
  · intro hn
    refine ⟨{ s with
      collection :=
        if n = 0 then alerase s.collection code
        else alset s.collection code n }, ?_⟩
    unfold set_card_count
    rw [if_neg (by omega)]
  · intro hn s2 hs2
    unfold set_card_count at hs2
    rw [if_neg (by omega), if_neg (by omega)] at hs2
    have hs2eq : s2 = { s with collection := alset s.collection code n } := by
      cases hs2
      rfl
    subst hs2eq
    unfold get_actual_card_count
    dsimp only
    rw [alget_alset_self]
  · intro hn s2 hs2
    subst hn
    unfold set_card_count at hs2
    rw [if_neg (by omega), if_pos rfl] at hs2
    have hs2eq : s2 = { s with collection := alerase s.collection code } := by
      cases hs2
      rfl
    subst hs2eq
    constructor
    · exact alget_alerase_self s.collection code
    · unfold get_actual_card_count
      dsimp only
      rw [alget_alerase_self]
      rfl

/-- Witness for C3 at a concrete positive count. -/
theorem c3_set_card_count_witness :
    (0 : Int) < 5 ∧
    ∀ s2, set_card_count st0 "01001" 5 = Except.ok s2 →
      get_actual_card_count cat0 s2 "01001" = 5 :=
  ⟨by decide, (c3_set_card_count cat0 st0 "01001" 5).2.1 (by decide)⟩

/-- Counterexample to C3 as stated: with pack core owned, setting the
count of card 01001 to 0 removes the override, after which the actual
count is the pack-derived 3, not 0. -/
theorem c3_counterexample :
    set_card_count st0 "01001" 0 = Except.ok st0 ∧
    get_actual_card_count cat0 st0 "01001" = 3 ∧ (3 : Int) ≠ 0 :=
  ⟨rfl, by decide, by decide⟩

/-- Sums of owned and required agree when they agree entrywise. -/
theorem owned_sum_eq_required_sum (reqs : List CardRequirement)
    (h : ∀ r ∈ reqs, r.owned = r.required) :
    (reqs.map (fun r => r.owned)).sum = (reqs.map (fun r => r.required)).sum := by
  induction reqs with
  | nil => rfl
  | cons r rest ih =>
    simp only [List.map_cons, List.sum_cons]
    rw [h r (List.mem_cons_self r rest),
      ih (fun x hx => h x (List.mem_cons_of_mem r hx))]

/-- C5: the completion percentage of a comparison result is 0 for an
empty decklist or a zero required total, owned over total times 100 when
the total is nonzero, and 100 when every entry is fully owned and the
total is nonzero. -/
theorem c5_completion_percentage (cat : Catalog) (s : CollectionState)
    (deck : List (String × Int)) :
    (deck = [] → (compare_decklist cat s deck).stats.completion_percentage = 0) ∧
    ((compare_decklist cat s deck).stats.total_cards = 0 →
      (compare_decklist cat s deck).stats.completion_percentage = 0) ∧
    ((compare_decklist cat s deck).stats.total_cards ≠ 0 →
      (compare_decklist cat s deck).stats.completion_percentage =
        ((compare_decklist cat s deck).stats.owned_cards : ℚ) /
          ((compare_decklist cat s deck).stats.total_cards : ℚ) * 100) ∧
    ((∀ r ∈ (compare_decklist cat s deck).requirements, r.owned = r.required) →
      (compare_decklist cat s deck).stats.total_cards ≠ 0 →
      (compare_decklist cat s deck).stats.completion_percentage = 100) := by
  have hzero :
      (compare_decklist cat s deck).stats.total_cards = 0 →
        (compare_decklist cat s deck).stats.completion_percentage = 0 := by
    intro h0
    unfold compare_decklist compute_stats at h0 ⊢
    dsimp only at h0 ⊢
    rw [if_pos h0]
  have hformula :
      (compare_decklist cat s deck).stats.total_cards ≠ 0 →
        (compare_decklist cat s deck).stats.completion_percentage =
          ((compare_decklist cat s deck).stats.owned_cards : ℚ) /
            ((compare_decklist cat s deck).stats.total_cards : ℚ) * 100 := by
    intro h0
    unfold compare_decklist compute_stats at h0 ⊢
    dsimp only at h0 ⊢
    rw [if_neg h0]
  refine ⟨?_, hzero, hformula, ?_⟩
  · intro hdeck
    subst hdeck
    rfl
  · intro hall h0
    rw [hformula h0]
    have hsum := owned_sum_eq_required_sum _ hall
    have howned :
        (compare_decklist cat s deck).stats.owned_cards =
          (compare_decklist cat s deck).stats.total_cards := hsum
    rw [howned]
    have ht : ((compare_decklist cat s deck).stats.total_cards : ℚ) ≠ 0 :=
      Int.cast_ne_zero.mpr h0
    rw [div_self ht, one_mul]

/-- The state of the spec scenario: two copies of card 01001, no packs. -/
def stPart : CollectionState := ⟨∅, [("01001", 2)], [], []⟩

/-- The decklist of the spec scenario: 3 of card 01001 and 2 of 01002. -/
def deck0 : List (String × Int) := [("01001", 3), ("01002", 2)]

/-- Witness for C5 at the spec scenario (total 5, owned 2). -/
theorem c5_completion_percentage_witness :
    (compare_decklist cat0 stPart deck0).stats.total_cards ≠ 0 ∧
    (compare_decklist cat0 stPart deck0).stats.completion_percentage =
      ((compare_decklist cat0 stPart deck0).stats.owned_cards : ℚ) /
        ((compare_decklist cat0 stPart deck0).stats.total_cards : ℚ) * 100 :=
  ⟨by decide, (c5_completion_percentage cat0 stPart deck0).2.2.1 (by decide)⟩

/-- A binding found by alget is a member of the association list. -/
theorem mem_of_alget {α : Type} {m : List (String × α)} {c : String} {v : α}
    (h : alget m c = some v) : (c, v) ∈ m := by
  induction m with
  | nil => simp [alget] at h
  | cons p rest ih =>
    obtain ⟨k, w⟩ := p
    by_cases hk : k = c
    · simp [alget, hk] at h
      simp [hk, h]
    · simp [alget, hk] at h
      exact List.mem_cons_of_mem _ (ih h)

/-- A well-formed sparse mapping reads back nonnegative counts. -/
theorem algetD_nonneg_of_MapWF {m : CMap} (h : MapWF m) (c : String) :
    0 ≤ algetD m c := by
  unfold algetD
  cases hm : alget m c with
  | none => simp
  | some v => simpa using le_of_lt (h.2 _ (mem_of_alget hm))

/-- C2 (amended): the comparator walks the decklist in order and emits
owned = min(required, available), missing = required minus owned, and
satisfaction exactly when availability covers the requirement; marking one
copy missing never changes the actual count, and lowers the owned
contribution by exactly one when the available count was at least 1 and at
most the required count. -/
theorem c2_analyze_decklist (cat : Catalog) (s : CollectionState)
    (deck : List (String × Int)) :
    ((analyze_decklist cat s deck).map (fun r => r.code) = deck.map Prod.fst) ∧
    (∀ i (hi : i < deck.length)
        (hi2 : i < (analyze_decklist cat s deck).length),
      ((analyze_decklist cat s deck).get ⟨i, hi2⟩).code = (deck.get ⟨i, hi⟩).1 ∧
      ((analyze_decklist cat s deck).get ⟨i, hi2⟩).required =
        (deck.get ⟨i, hi⟩).2 ∧
      ((analyze_decklist cat s deck).get ⟨i, hi2⟩).owned =
        min (deck.get ⟨i, hi⟩).2
          (get_available_count cat s (deck.get ⟨i, hi⟩).1) ∧
      ((analyze_decklist cat s deck).get ⟨i, hi2⟩).missing =
        (deck.get ⟨i, hi⟩).2 -
          ((analyze_decklist cat s deck).get ⟨i, hi2⟩).owned ∧
      (((analyze_decklist cat s deck).get ⟨i, hi2⟩).is_satisfied ↔
        (deck.get ⟨i, hi⟩).2 ≤
          get_available_count cat s (deck.get ⟨i, hi⟩).1)) ∧
    (∀ code s2, StateWF s →
      add_missing_card s code 1 = Except.ok s2 →
      (get_actual_card_count cat s2 code = get_actual_card_count cat s code ∧
        ∀ required : Int,
          1 ≤ get_available_count cat s code →
          get_available_count cat s code ≤ required →
          min required (get_available_count cat s2 code) =
            min required (get_available_count cat s code) - 1)) := by
  refine ⟨?_, ?_, ?_⟩
  · simp [analyze_decklist, List.map_map]
  · intro i hi hi2
    simp only [analyze_decklist, List.get_eq_getElem, List.getElem_map]
    refine ⟨trivial, trivial, trivial, trivial, ?_⟩
    unfold CardRequirement.is_satisfied
    dsimp only
    omega
  · intro code s2 hwf hok
    unfold add_missing_card at hok
    rw [if_neg (by omega)] at hok
    have hs2 :
        s2 = { s with
          missing_cards := modify_card_count s.missing_cards code 1 } := by
      cases hok
      rfl
    subst hs2
    have hmc : 0 ≤ algetD s.missing_cards code :=
      algetD_nonneg_of_MapWF hwf.2.2 code
    have hnew :
        algetD (modify_card_count s.missing_cards code 1) code =
          algetD s.missing_cards code + 1 := by
      unfold modify_card_count
      dsimp only
      rw [if_neg (by omega)]
      unfold algetD at hmc ⊢
      rw [alget_alset_self]
      dsimp only [Option.getD] at hmc ⊢
      omega
    refine ⟨rfl, ?_⟩
    intro required h1 h2
    unfold get_available_count at h1 h2 ⊢
    have hact :
        get_actual_card_count cat
          { s with missing_cards := modify_card_count s.missing_cards code 1 }
          code = get_actual_card_count cat s code := rfl
    rw [hact, hnew]
    omega

/-- A state holding three copies of card 01001 as an override. -/
def stB : CollectionState := ⟨∅, [("01001", 3)], [], []⟩

/-- The state after marking one copy of card 01001 missing. -/
def stB2 : CollectionState := step stB (Op.addMissing "01001" 1)

/-- Counterexample to C2 as stated: with 3 copies actual and only 1
required, marking one copy missing leaves the owned contribution at 1
(the availability was not the binding constraint), while the actual count
is unchanged. -/
theorem c2_counterexample :
    get_actual_card_count cat0 stB2 "01001" =
      get_actual_card_count cat0 stB "01001" ∧
    (analyze_decklist cat0 stB [("01001", 1)]).map (fun r => r.owned) = [1] ∧
    (analyze_decklist cat0 stB2 [("01001", 1)]).map (fun r => r.owned) = [1] := by
  decide

/-- Witness for C2: at index 0 of the scenario decklist the emitted
requirement has owned 2 and missing 1, and marking one copy missing when
availability binds lowers the owned contribution by one. -/
theorem c2_analyze_decklist_witness :
    (0 < deck0.length ∧ 0 < (analyze_decklist cat0 stPart deck0).length ∧
      ((analyze_decklist cat0 stPart deck0).get
          ⟨0, by decide⟩).owned =
        min (deck0.get ⟨0, by decide⟩).2
          (get_available_count cat0 stPart (deck0.get ⟨0, by decide⟩).1)) ∧
    (StateWF stB ∧ add_missing_card stB "01001" 1 = Except.ok stB2 ∧
      get_actual_card_count cat0 stB2 "01001" =
        get_actual_card_count cat0 stB "01001" ∧
      min (3 : Int) (get_available_count cat0 stB2 "01001") =
        min (3 : Int) (get_available_count cat0 stB "01001") - 1) := by
  refine ⟨⟨by decide, by decide, ?_⟩, ?_⟩
  · exact ((c2_analyze_decklist cat0 stPart deck0).2.1 0 (by decide)
      (by decide)).2.2.1
  · have h := (c2_analyze_decklist cat0 stB [("01001", 3)]).2.2 "01001" stB2
      (by decide) rfl
    exact ⟨by decide, rfl, h.1, h.2 3 (by decide) (by decide)⟩

/-- Deleting a key preserves well-formedness of a sparse mapping. -/
theorem MapWF_alerase {m : CMap} (h : MapWF m) (c : String) :
    MapWF (alerase m c) :=
  ⟨nodup_alkeys_alerase h.1, fun p hp => h.2 p (mem_alerase hp)⟩

/-- Storing a positive value preserves well-formedness of a sparse
mapping. -/
theorem MapWF_alset_pos {m : CMap} (h : MapWF m) (c : String) {v : Int}
    (hv : 0 < v) : MapWF (alset m c v) := by
  refine ⟨nodup_alkeys_alset h.1, fun p hp => ?_⟩
  rcases mem_alset hp with rfl | hp2
  · exact hv
  · exact h.2 p hp2

/-- The clamp-and-remove rule of modify_card_count preserves
well-formedness for any signed delta. -/
theorem MapWF_modify {m : CMap} (h : MapWF m) (c : String) (d : Int) :
    MapWF (modify_card_count m c d) := by
  unfold modify_card_count
  dsimp only
  by_cases h0 : max 0 (algetD m c + d) = 0
  · rw [if_pos h0]
    exact MapWF_alerase h c
  · rw [if_neg h0]
    exact MapWF_alset_pos h c (by omega)

/-- The remove-at-zero rule for the signed diff mapping preserves its
well-formedness for any signed value. -/
theorem DiffWF_setbranch {m : CMap} (h : DiffWF m) (c : String) (d : Int) :
    DiffWF (if d = 0 then alerase m c else alset m c d) := by
  by_cases hd : d = 0
  · rw [if_pos hd]
    exact ⟨nodup_alkeys_alerase h.1, fun p hp => h.2 p (mem_alerase hp)⟩
  · rw [if_neg hd]
    refine ⟨nodup_alkeys_alset h.1, fun p hp => ?_⟩
    rcases mem_alset hp with rfl | hp2
    · exact hd
    · exact h.2 p hp2

/-- Every single mutation operation preserves well-formedness of the
Collection State. -/
theorem StateWF_step (s : CollectionState) (op : Op) (h : StateWF s) :
    StateWF (step s op) := by
  obtain ⟨hc, hd, hm⟩ := h
  cases op with
  | addPack p => exact ⟨hc, hd, hm⟩
  | removePack p => exact ⟨hc, hd, hm⟩
  | addCard c q =>
    by_cases hq : q < 0
    · have he : step s (Op.addCard c q) = s := by
        simp only [step, add_card]
        rw [if_pos hq]
      rw [he]
      exact ⟨hc, hd, hm⟩
    · have he : step s (Op.addCard c q) =
          { s with collection := modify_card_count s.collection c q } := by
        simp only [step, add_card]
        rw [if_neg hq]
      rw [he]
      exact ⟨MapWF_modify hc c q, hd, hm⟩
  | removeCard c q =>
    by_cases hq : q < 0
    · have he : step s (Op.removeCard c q) = s := by
        simp only [step, remove_card]
        rw [if_pos hq]
      rw [he]
      exact ⟨hc, hd, hm⟩
    · have he : step s (Op.removeCard c q) =
          { s with collection := modify_card_count s.collection c (-q) } := by
        simp only [step, remove_card]
        rw [if_neg hq]
      rw [he]
      exact ⟨MapWF_modify hc c (-q), hd, hm⟩
  | setCardCount c n =>
    by_cases hn : n < 0
    · have he : step s (Op.setCardCount c n) = s := by
        simp only [step, set_card_count]
        rw [if_pos hn]
      rw [he]
      exact ⟨hc, hd, hm⟩
    · have he : step s (Op.setCardCount c n) =
          { s with collection :=
            if n = 0 then alerase s.collection c else alset s.collection c n } := by
        simp only [step, set_card_count]
        rw [if_neg hn]
      rw [he]
      by_cases h0 : n = 0
      · rw [if_pos h0]
        exact ⟨MapWF_alerase hc c, hd, hm⟩
      · rw [if_neg h0]
        exact ⟨MapWF_alset_pos hc c (by omega), hd, hm⟩
  | addMissing c q =>
    by_cases hq : q < 0
    · have he : step s (Op.addMissing c q) = s := by
        simp only [step, add_missing_card]
        rw [if_pos hq]
      rw [he]
      exact ⟨hc, hd, hm⟩
    · have he : step s (Op.addMissing c q) =
          { s with missing_cards := modify_card_count s.missing_cards c q } := by
        simp only [step, add_missing_card]
        rw [if_neg hq]
      rw [he]
      exact ⟨hc, hd, MapWF_modify hm c q⟩
  | removeMissing c q =>
    by_cases hq : q < 0
    · have he : step s (Op.removeMissing c q) = s := by
        simp only [step, remove_missing_card]
        rw [if_pos hq]
      rw [he]
      exact ⟨hc, hd, hm⟩
    · have he : step s (Op.removeMissing c q) =
          { s with missing_cards := modify_card_count s.missing_cards c (-q) } := by
        simp only [step, remove_missing_card]
        rw [if_neg hq]
      rw [he]
      exact ⟨hc, hd, MapWF_modify hm c (-q)⟩
  | setDiff c d => exact ⟨hc, DiffWF_setbranch hd c d, hm⟩
  | modifyDiff c d =>
    exact ⟨hc, DiffWF_setbranch hd c (get_card_difference s c + d), hm⟩

/-- Well-formedness is preserved by any sequence of mutations. -/
theorem StateWF_run_ops {s : CollectionState} (h : StateWF s) (ops : List Op) :
    StateWF (run_ops s ops) := by
  induction ops generalizing s with
  | nil => exact h
  | cons op rest ih => exact ih (StateWF_step s op h)

/-- C4 (amended): after any sequence of mutation operations from a
well-formed state, every value stored in card_overrides and missing_cards
is strictly positive (so never negative, and an entry reaching 0 was
removed); the signed card_diffs mapping keeps unique keys and stores no
zero, but may legitimately hold negative diffs. -/
theorem c4_invariant (s : CollectionState) (ops : List Op) (h : StateWF s) :
    StateWF (run_ops s ops) ∧
    (∀ p ∈ (run_ops s ops).collection, 0 < p.2) ∧
    (∀ p ∈ (run_ops s ops).missing_cards, 0 < p.2) :=
  ⟨StateWF_run_ops h ops, (StateWF_run_ops h ops).1.2,
    (StateWF_run_ops h ops).2.2.2⟩

/-- A mutation sequence touching every mapping. -/
def ops0 : List Op :=
  [Op.addPack "core", Op.addCard "01001" 2, Op.removeCard "01001" 5,
    Op.setDiff "01002" (-1), Op.addMissing "02001" 1]

/-- Witness for C4 from the empty state over a concrete mutation
sequence. -/
theorem c4_invariant_witness :
    StateWF stEmpty ∧
    (StateWF (run_ops stEmpty ops0) ∧
      (∀ p ∈ (run_ops stEmpty ops0).collection, 0 < p.2) ∧
      (∀ p ∈ (run_ops stEmpty ops0).missing_cards, 0 < p.2)) :=
  ⟨by decide, c4_invariant stEmpty ops0 (by decide)⟩

/-- The state reached from empty by owning core and recording a diff of
minus one for card 01002, as in the pack-removal test. -/
def stNeg : CollectionState := ⟨{"core"}, [], [("01002", -1)], []⟩

/-- Counterexample to C4 as stated: the mutation sequence of the
card-difference test stores the value minus one in card_diffs, so not
every stored value is nonnegative. -/
theorem c4_counterexample :
    run_ops stEmpty [Op.addPack "core", Op.setDiff "01002" (-1)] = stNeg ∧
    alget stNeg.card_diffs "01002" = some (-1) ∧
    ¬ ∀ p ∈ stNeg.card_diffs, 0 ≤ p.2 := by
  decide

/-- Python str.isdigit agrees with the ASCII decimal digit test on ASCII
characters. -/
theorem pyCharIsdigit_ascii {c : Char} (h : c.toNat < 128) :
    pyCharIsdigit c = c.isDigit := by
  unfold pyCharIsdigit
  have hd : decide (c.toNat = 0xB9 ∨ c.toNat = 0xB2 ∨ c.toNat = 0xB3 ∨
      (0x2070 ≤ c.toNat ∧ c.toNat ≤ 0x2079) ∨
      (0x2080 ≤ c.toNat ∧ c.toNat ≤ 0x2089)) = false := by
    apply decide_eq_false
    rintro (h1 | h1 | h1 | ⟨h1, h2⟩ | ⟨h1, h2⟩) <;> omega
  rw [hd, Bool.or_false]

/-- On an all-ASCII string the Python digit test coincides with checking
that every character is a decimal digit. -/
theorem all_pyCharIsdigit_ascii (l : List Char) (h : ∀ c ∈ l, c.toNat < 128) :
    l.all pyCharIsdigit = l.all Char.isDigit := by
  induction l with
  | nil => rfl
  | cons c cs ih =>
    simp only [List.all_cons]
    rw [pyCharIsdigit_ascii (h c (List.mem_cons_self c cs)),
      ih (fun x hx => h x (List.mem_cons_of_mem c hx))]

/-- C10 (amended): get_card_by_code raises ValueError exactly when the
code is empty or fails the five-character Python isdigit validation, and
otherwise returns the card set lookup (None only when the validated code
is absent); on ASCII input the validation coincides with requiring five
decimal digits. -/
theorem c10_card_code_validation (cards : List (String × CardM))
    (code : String) :
    (code = "" →
      get_card_by_code cards code = Except.error ApiValueError.valueError) ∧
    (pyStrIsdigit code = false →
      get_card_by_code cards code = Except.error ApiValueError.valueError) ∧
    (code.length ≠ 5 →
      get_card_by_code cards code = Except.error ApiValueError.valueError) ∧
    (pyStrIsdigit code = true → code.length = 5 →
      get_card_by_code cards code = Except.ok (alget cards code)) ∧
    ((∀ c ∈ code.data, c.toNat < 128) →
      code.data.all pyCharIsdigit = code.data.all Char.isDigit) := by
  refine ⟨?_, ?_, ?_, ?_, ?_⟩
  · intro h
    subst h
    rfl
  · intro h
    unfold get_card_by_code
    by_cases he : code = ""
    · rw [if_pos he]
    · rw [if_neg he, if_pos (Or.inl h)]
  · intro h
    unfold get_card_by_code
    by_cases he : code = ""
    · rw [if_pos he]
    · rw [if_neg he, if_pos (Or.inr h)]
  · intro hdig hlen
    have hne : code ≠ "" := by
      intro he
      rw [he] at hdig
      exact absurd hdig (by decide)
    unfold get_card_by_code
    rw [if_neg hne, if_neg ?hcond]
    case hcond =>
      rintro (h | h)
      · rw [hdig] at h
        cases h
      · exact h hlen
  · exact all_pyCharIsdigit_ascii code.data

/-- Witness for C10 at a well-formed present code. -/
theorem c10_card_code_validation_witness :
    pyStrIsdigit "01001" = true ∧ "01001".length = 5 ∧
    get_card_by_code cards0 "01001" = Except.ok (alget cards0 "01001") :=
  ⟨rfl, rfl, (c10_card_code_validation cards0 "01001").2.2.2.1 rfl rfl⟩

/-- Counterexample to C10 as stated: the five superscript-two characters
pass the Python isdigit validation though none of them is a decimal
digit, so the call returns None instead of raising ValueError. -/
theorem c10_counterexample :
    "²²²²²".length = 5 ∧
    "²²²²²".data.all Char.isDigit = false ∧
    get_card_by_code cards0 "²²²²²" = Except.ok none :=
  ⟨rfl, rfl, rfl⟩

end Simulchip
